import Mathlib

/-!
Verification development for the WhatsApp chat parser
(`backend/parser/whatsapp_parser.py`).

The parser is embedded shallowly: each regex of the source is translated
into an executable matcher over `List Char` that reproduces the Python
`re.match` semantics of that concrete pattern (including the places where
greedy matching with backtracking is determinized — noted at each spot),
and the line-processing loop of `parse_chat_file` becomes an explicit
state-passing fold.  `pandas.to_datetime` and the final sort are external
library calls; they are modelled from their documented default behaviour
(`dayfirst=False`, `errors="coerce"`; sorting by the timestamp column),
with the modelling assumptions stated on each definition.
-/

namespace WhatsappParser

/-- Whitespace as Python's `re` `\s` and `str.strip()` see it on `str`
inputs: the ASCII whitespace characters plus the Unicode whitespace
characters (NEL, NBSP, the Zs block, and the line/paragraph separators). -/
def pyIsSpace (c : Char) : Bool :=
  c == ' ' || c == '\t' || c == '\n' || c == '\r' || c == '\x0b' || c == '\x0c' ||
  c == '\x1c' || c == '\x1d' || c == '\x1e' || c == '\x1f' || c == '\x85' ||
  c == '\xa0' || c == '\u1680' || ('\u2000' ≤ c && c ≤ '\u200A') ||
  c == '\u2028' || c == '\u2029' || c == '\u202F' || c == '\u205F' || c == '\u3000'

/-- Digits as matched by `\d`.  Python's `\d` also accepts other Unicode
decimal digits; only the ASCII digits are modelled, which is the alphabet
the chat exports and all claims use. -/
def pyIsDigit (c : Char) : Bool := '0' ≤ c && c ≤ '9'

/-- Numeric value of a run of ASCII digits. -/
def digitsVal (cs : List Char) : Nat :=
  cs.foldl (fun acc c => 10 * acc + (c.toNat - 48)) 0

/-- Strip `pyIsSpace` characters from both ends, as Python `str.strip()`. -/
def pyStrip (s : String) : String :=
  String.mk (((s.toList.dropWhile pyIsSpace).reverse.dropWhile pyIsSpace).reverse)

/-- First occurrence of (non-empty) `sep` in `cs`: `some (before, after)`,
or `none` when `sep` does not occur.  This is the search underlying both
Python's `in` test and `str.split(sep)[0]` as the source uses them. -/
def splitFirst (sep : List Char) : List Char → Option (List Char × List Char)
  | [] => if sep = [] then some ([], []) else none
  | c :: rest =>
    if sep.isPrefixOf (c :: rest) then some ([], (c :: rest).drop sep.length)
    else (splitFirst sep rest).map (fun p => (c :: p.1, p.2))

/-- Python's substring test `needle in hay`. -/
def pyContains (needle hay : String) : Bool :=
  (splitFirst needle.toList hay.toList).isSome

/-- Python's `hay.split(needle)[0]`: the text before the first occurrence
(the whole string when there is none — unreachable in the source's use). -/
def partBefore (needle hay : String) : String :=
  match splitFirst needle.toList hay.toList with
  | some p => String.mk p.1
  | none => hay

/-- Python's `' '.join(...)`. -/
def joinSp : List String → String
  | [] => ""
  | [s] => s
  | s :: rest => s ++ " " ++ joinSp rest

/-- Line 80-85 of the source: replace the narrow no-break space and the
line separator by a plain space and delete the left-to-right mark. -/
def normalizeLine (s : String) : String :=
  String.mk (s.toList.filterMap (fun c =>
    if c = '\u202F' then some ' '
    else if c = '\u200E' then none
    else if c = '\u2028' then some ' '
    else some c))

/-! ## The three regexes

All three share the timestamp core
`\d{1,2}/\d{1,2}/\d{2,4},\s*\d{1,2}:\d{2}(?::\d{2})?`.
Greedy repetition in that core is deterministic for these patterns: a
digit run longer than the counted bound makes every backtracking
alternative fail too, because the character after each bounded run must
be a non-digit (`/`, `,`, `:`, whitespace, `]`, `-` or a meridiem
letter), so the runs are matched by exact spans with a length bound. -/

/-- Match `\d{lo,hi}` as an exact digit span (see the determinization
note above): `some rest` when the maximal digit run has length in
`[lo, hi]`. -/
def takeDigits (lo hi : Nat) (cs : List Char) : Option (List Char) :=
  let r := cs.takeWhile pyIsDigit
  if lo ≤ r.length ∧ r.length ≤ hi then some (cs.dropWhile pyIsDigit) else none

/-- Match one literal character. -/
def expectChar (c : Char) : List Char → Option (List Char)
  | [] => none
  | x :: rest => if x = c then some rest else none

/-- The shared timestamp core, up to and including the optional seconds
(the trailing `\s*(?:[AP]M)?` differs between the grammars and is handled
by each caller).  When the character after the minutes is `:` the seconds
group must match — skipping the optional group instead would put `:`
where every grammar next requires `]`, whitespace or `-`. -/
def tsCore (cs : List Char) : Option (List Char) := do
  let cs ← takeDigits 1 2 cs
  let cs ← expectChar '/' cs
  let cs ← takeDigits 1 2 cs
  let cs ← expectChar '/' cs
  let cs ← takeDigits 2 4 cs
  let cs ← expectChar ',' cs
  let cs := cs.dropWhile pyIsSpace
  let cs ← takeDigits 1 2 cs
  let cs ← expectChar ':' cs
  let cs ← takeDigits 2 2 cs
  match cs with
  | ':' :: cs2 => takeDigits 2 2 cs2
  | _ => pure cs

/-- The two-letter meridiem `[AP]M`, case-insensitively when `ci` is true
(the chat and legacy regexes carry `re.IGNORECASE`; the system regex does
not). -/
def isMerChars (ci : Bool) (a b : Char) : Bool :=
  if ci then (a == 'A' || a == 'a' || a == 'P' || a == 'p') && (b == 'M' || b == 'm')
  else (a == 'A' || a == 'P') && (b == 'M')

/-- Consume `\s*(?:[AP]M)?` when the next literal is `]` (the bracketed
grammars): eat the whitespace run, then the meridiem when its two letters
are present.  Deterministic because whitespace, the meridiem letters and
`]` are pairwise disjoint, so no backtracking alternative can succeed
where this fails. -/
def merTailAux (ci : Bool) : List Char → List Char
  | a :: b :: rest => if isMerChars ci a b then rest else a :: b :: rest
  | other => other

def merTail (ci : Bool) (cs : List Char) : List Char :=
  merTailAux ci (cs.dropWhile pyIsSpace)

/-- Match `([^:]+):` — the sender capture shared verbatim by all three
regexes: a non-empty run of non-colon characters up to the first colon,
which is then consumed. -/
def senderSplit (cs : List Char) : Option (List Char × List Char) :=
  let sd := cs.takeWhile (fun c => !(c == ':'))
  match cs.dropWhile (fun c => !(c == ':')) with
  | ':' :: rest => if sd = [] then none else some (sd, rest)
  | _ => none

/-- Match `\s?(.*)` (`plus = false`) or `\s?(.+)` (`plus = true`) at the
end of the pattern.  `.` excludes `'\n'` (no `re.DOTALL`); the greedy
`\s?` eats one whitespace character first and backtracks to eating none
when `.+` then finds no non-newline character. -/
def bodyOf (plus : Bool) (cs : List Char) : Option (List Char) :=
  match cs with
  | [] => if plus then none else some []
  | c :: rest =>
    if pyIsSpace c then
      if plus then
        match rest with
        | [] => if c = '\n' then none else some [c]
        | d :: _ =>
          if d = '\n' then
            (if c = '\n' then none
             else some ((c :: rest).takeWhile (fun x => !(x == '\n'))))
          else some (rest.takeWhile (fun x => !(x == '\n')))
      else some (rest.takeWhile (fun x => !(x == '\n')))
    else
      some ((c :: rest).takeWhile (fun x => !(x == '\n')))

/-- The `\]\s([^:]+):\s?(body)` part after the timestamp capture of the
bracketed grammars: `cs2` is the remainder after `merTail`. -/
def afterTs (plus : Bool) (tsStr : String) : List Char → Option (String × String × String)
  | c :: w :: cs4 =>
    if c = ']' ∧ pyIsSpace w then
      match senderSplit cs4 with
      | some (sd, cs5) =>
        (bodyOf plus cs5).map (fun bd => (tsStr, String.mk sd, String.mk bd))
      | none => none
    else none
  | _ => none

/-- `re.match` of the bracketed grammar
`\[(ts)\]\s([^:]+):\s?(body)` against a line, returning the three capture
groups.  `ci` is the `re.IGNORECASE` flag (set on `WHATSAPP_CHAT_REGEX`,
clear on `SYSTEM_MESSAGE_REGEX`); `plus` selects the `(.+)` body of the
system variant over the `(.*)` body of the chat variant. -/
def bracketAux (ci plus : Bool) (c : Char) (cs : List Char) : Option (String × String × String) :=
  if c = '[' then
    match tsCore cs with
    | none => none
    | some cs1 =>
      afterTs plus
        (String.mk (cs.take (cs.length - (merTail ci cs1).length)))
        (merTail ci cs1)
  else none

def bracketHeader (ci plus : Bool) (s : String) : Option (String × String × String) :=
  match s.toList with
  | [] => none
  | c :: cs => bracketAux ci plus c cs

/-- `re.match` of `WHATSAPP_LEGACY_REGEX`:
`(ts)\s-\s([^:]+):\s?(.*)` with `re.IGNORECASE`.  After the timestamp
core the pattern is `\s*(?:[AP]M)?\s-\s`; with a meridiem present the
whitespace run is consumed whole and ` - ` must follow; without one the
run's last whitespace character serves as the `\s` before `-`, so the
capture keeps the run except that character. -/
def legacyHeader (s : String) : Option (String × String × String) :=
  let cs := s.toList
  match tsCore cs with
  | none => none
  | some cs1 =>
    let w := (cs1.takeWhile pyIsSpace).length
    let cs2 := cs1.dropWhile pyIsSpace
    match cs2 with
    | a :: b :: rest =>
      if isMerChars true a b then
        match rest with
        | x :: '-' :: y :: cs3 =>
          if pyIsSpace x ∧ pyIsSpace y then
            let tsStr := String.mk (cs.take (cs.length - rest.length))
            match senderSplit cs3 with
            | some (sd, cs5) =>
              (bodyOf false cs5).map (fun bd => (tsStr, String.mk sd, String.mk bd))
            | none => none
          else none
        | _ => none
      else
        match cs2 with
        | '-' :: y :: cs3 =>
          if 1 ≤ w ∧ pyIsSpace y then
            let tsStr := String.mk (cs.take (cs.length - cs1.length + (w - 1)))
            match senderSplit cs3 with
            | some (sd, cs5) =>
              (bodyOf false cs5).map (fun bd => (tsStr, String.mk sd, String.mk bd))
            | none => none
          else none
        | _ => none
    | _ =>
      match cs2 with
      | '-' :: y :: cs3 =>
        if 1 ≤ w ∧ pyIsSpace y then
          let tsStr := String.mk (cs.take (cs.length - cs1.length + (w - 1)))
          match senderSplit cs3 with
          | some (sd, cs5) =>
            (bodyOf false cs5).map (fun bd => (tsStr, String.mk sd, String.mk bd))
          | none => none
        else none
      | _ => none

/-- `WHATSAPP_CHAT_REGEX.match`. -/
def chatHeader (s : String) : Option (String × String × String) :=
  bracketHeader true false s

/-- `SYSTEM_MESSAGE_REGEX.match`. -/
def systemHeader (s : String) : Option (String × String × String) :=
  bracketHeader false true s

/-- Lines 87-91 of the source: the chat regex first, the legacy regex
when it fails — the `match` variable of the loop. -/
def lineMatch (s : String) : Option (String × String × String) :=
  match chatHeader s with
  | some r => some r
  | none => legacyHeader s

/-! ## Records and body post-processing -/

/-- The `message_type` values the source stores as strings. -/
inductive MType where
  | text
  | media
  | voice_note
  | system
deriving DecidableEq

/-- One entry of the source's `chat_data` list: the record before
timestamp normalization. -/
structure RawRecord where
  timestamp_str : String
  sender : String
  message : String
  message_type : MType
  media_filename : Option String
deriving DecidableEq

/-- The literal marker from line 31 of the source. -/
def MEDIA_OMITTED_MSG : String := "<Media omitted>"

/-- The attached-file marker literal from lines 118-119 of the source. -/
def fileAttachedMarker : String := "(file attached)"

/-- Lines 112-122 of the source: classify an (already stripped) header
body into `(message, message_type, media_filename)` — the media-omitted
check first, then the attached-file check with its `".opus" in filename`
voice-note test, else plain text. -/
def postProcess (t : String) : String × MType × Option String :=
  if pyContains MEDIA_OMITTED_MSG t = true then
    ("", MType.media, none)
  else if pyContains fileAttachedMarker t = true then
    ("",
     (if pyContains ".opus" (pyStrip (partBefore fileAttachedMarker t)) = true
      then MType.voice_note else MType.media),
     some (pyStrip (partBefore fileAttachedMarker t)))
  else (t, MType.text, none)

/-- The fields of a record that the header line alone determines:
everything except `message`. -/
def headerFields (r : RawRecord) : String × String × MType × Option String :=
  (r.timestamp_str, r.sender, r.message_type, r.media_filename)

/-! ## The line-processing loop -/

/-- The loop state of `parse_chat_file`: the records built so far, the
pending continuation lines of the currently open record, and the
diagnostic counters. -/
structure PState where
  chat_data : List RawRecord
  current_message_lines : List String
  matched_count : Nat
  unmatched_count : Nat
  unmatched_samples : List String
deriving DecidableEq

/-- The loop state before the first line. -/
def initState : PState :=
  ⟨[], [], 0, 0, []⟩

/-- Replace the last element of a list by `f` of it (`chat_data[-1]`). -/
def updateLast (f : RawRecord → RawRecord) : List RawRecord → List RawRecord
  | [] => []
  | [r] => [f r]
  | r :: rs => r :: updateLast f rs

/-- Append pending continuation text to a record's message — note the
source appends `' '.join(current_message_lines)` with no separator
between the existing message and the joined block. -/
def appendMsg (t : String) (r : RawRecord) : RawRecord :=
  { r with message := r.message ++ t }

/-- Lines 99-101 (and 133-135) of the source: flush the pending
continuation lines into the last record's message.  (The state where
`current_message_lines` is non-empty while `chat_data` is empty is
unreachable, because continuation lines are only accumulated while a
record is open; `updateLast` is the identity on `[]` there.) -/
def flushPending (st : PState) : PState :=
  if st.current_message_lines = [] then st
  else
    { st with
      chat_data := updateLast (appendMsg (joinSp st.current_message_lines)) st.chat_data
      current_message_lines := [] }

/-- The loop body of `parse_chat_file` (lines 78-156 of the source) for
one raw line. -/
def processLine (st : PState) (line : String) : PState :=
  let nl := normalizeLine line
  match lineMatch nl with
  | some (ts, sd, bd) =>
    let st1 := flushPending st
    let r := postProcess (pyStrip bd)
    { st1 with
      matched_count := st1.matched_count + 1
      chat_data := st1.chat_data ++ [⟨ts, sd, r.1, r.2.1, r.2.2⟩] }
  | none =>
    match systemHeader nl with
    | some (ts, _sd, bd) =>
      let st1 := flushPending st
      { st1 with
        matched_count := st1.matched_count + 1
        chat_data := st1.chat_data ++ [⟨ts, "System", pyStrip bd, MType.system, none⟩] }
    | none =>
      if st.chat_data = [] then
        { st with
          unmatched_count := st.unmatched_count + 1
          unmatched_samples :=
            if st.unmatched_samples.length < 3
            then st.unmatched_samples ++ [pyStrip nl]
            else st.unmatched_samples }
      else
        { st with current_message_lines := st.current_message_lines ++ [pyStrip nl] }

/-- Lines 158-160 of the source: after the loop, flush the pending
continuation lines of the last record, guarded by both
`current_message_lines` and `chat_data` being non-empty. -/
def endFlush (st : PState) : PState :=
  if st.current_message_lines ≠ [] ∧ st.chat_data ≠ [] then
    { st with
      chat_data := updateLast (appendMsg (joinSp st.current_message_lines)) st.chat_data }
  else st

/-- The loop state after all lines. -/
def finalState (lines : List String) : PState :=
  endFlush (lines.foldl processLine initState)

/-- The `chat_data` list as it enters the DataFrame stage. -/
def recordsOf (lines : List String) : List RawRecord :=
  (finalState lines).chat_data

/-- The source's `matched_count` after the loop. -/
def matchedCount (lines : List String) : Nat :=
  (finalState lines).matched_count

/-- The source's `unmatched_count` after the loop. -/
def unmatchedCount (lines : List String) : Nat :=
  (finalState lines).unmatched_count

/-- Whether the loop body takes the continuation branch on `line` in
state `st`: no grammar matches and a record is open. -/
def contTaken (st : PState) (line : String) : Prop :=
  lineMatch (normalizeLine line) = none ∧
  systemHeader (normalizeLine line) = none ∧
  st.chat_data ≠ []

instance (st : PState) (line : String) : Decidable (contTaken st line) := by
  unfold contTaken; infer_instance

/-- How many lines of `lines` the loop, started in `st`, absorbs as
continuations of an open record. -/
def contCount (st : PState) : List String → Nat
  | [] => 0
  | l :: ls => (if contTaken st l then 1 else 0) + contCount (processLine st l) ls

/-- Lines that are non-empty from the classifier's point of view (used
only to state the spec's conservation property). -/
def nonEmptyLineCount (lines : List String) : Nat :=
  (lines.filter (fun l => !(pyStrip (normalizeLine l) == ""))).length

/-! ## Timestamp normalization (model of `pandas.to_datetime`)

The source converts the captured `timestamp_str` column with
`pd.to_datetime(df['timestamp_str'], errors='coerce')` — no `format`, no
`dayfirst`.  The model below reproduces pandas' documented default
behaviour on the strings the header grammars can capture
(`D/D/Y, H:MM[:SS][ AM|PM]` with Python-`\s` gaps):

* `dayfirst=False`: an ambiguous first field (≤ 12) is the month; a
  first field over 12 is re-read as the day (pandas emits a warning and
  swaps), and a date valid under neither reading fails;
* two-digit years pivot as `%y` does: `00-68` → `2000-2068`,
  `69-99` → `1969-1999`;
* with a meridiem the hour must be `1..12` (`12 AM` → `0`,
  `12 PM` → `12`); without one it must be `0..23`; minutes and seconds
  must be `≤ 59`; dates must be calendar-valid;
* `errors='coerce'`: any failure yields `NaT` (`none`), per element.
-/

/-- A normalized timestamp (pandas `Timestamp`, naive). -/
structure DT where
  year : Nat
  month : Nat
  day : Nat
  hour : Nat
  minute : Nat
  second : Nat
deriving DecidableEq

/-- Total order key for sorting by timestamp. -/
def DT.key (t : DT) : Nat :=
  ((((t.year * 13 + t.month) * 32 + t.day) * 24 + t.hour) * 60 + t.minute) * 60 + t.second

/-- Gregorian leap year. -/
def isLeap (y : Nat) : Bool :=
  y % 4 = 0 && (y % 100 ≠ 0 || y % 400 = 0)

/-- Days in a month. -/
def daysInMonth (y m : Nat) : Nat :=
  if m = 2 then (if isLeap y then 29 else 28)
  else if m = 4 ∨ m = 6 ∨ m = 9 ∨ m = 11 then 30
  else 31

/-- The `%y` two-digit-year pivot. -/
def pivotYear (y : Nat) : Nat :=
  if y < 100 then (if y ≤ 68 then 2000 + y else 1900 + y) else y

/-- Resolve the two date fields under pandas' default `dayfirst=False`:
`(year, month, day)`, month-first when the first field can be a month,
day-first when only the second can. -/
def assembleDMY (d1 d2 y : Nat) : Option (Nat × Nat × Nat) :=
  if 1 ≤ d1 ∧ d1 ≤ 12 then
    if 1 ≤ d2 ∧ d2 ≤ daysInMonth (pivotYear y) d1
    then some (pivotYear y, d1, d2) else none
  else if 1 ≤ d2 ∧ d2 ≤ 12 then
    if 1 ≤ d1 ∧ d1 ≤ daysInMonth (pivotYear y) d2
    then some (pivotYear y, d2, d1) else none
  else none

/-- Resolve the hour against the optional meridiem (`some true` = PM). -/
def hour24 (h : Nat) (mer : Option Bool) : Option Nat :=
  match mer with
  | none => if h ≤ 23 then some h else none
  | some pm =>
    if 1 ≤ h ∧ h ≤ 12 then
      some (if pm then (if h = 12 then 12 else h + 12) else (if h = 12 then 0 else h))
    else none

/-- A non-empty digit run with its value. -/
def grabNum (cs : List Char) : Option (Nat × List Char) :=
  let r := cs.takeWhile pyIsDigit
  if r = [] then none else some (digitsVal r, cs.dropWhile pyIsDigit)

/-- AM as `to_datetime` accepts it (either case). -/
def merAm (a b : Char) : Bool :=
  (a == 'A' || a == 'a') && (b == 'M' || b == 'm')

/-- PM as `to_datetime` accepts it (either case). -/
def merPm (a b : Char) : Bool :=
  (a == 'P' || a == 'p') && (b == 'M' || b == 'm')

/-- Model of `pd.to_datetime(ts, errors='coerce')` with its defaults on
one captured timestamp string (see the section comment for the modelled
behaviour); `none` is `NaT`. -/
def toDatetime (s : String) : Option DT := do
  let cs := s.toList.dropWhile pyIsSpace
  let (d1, cs) ← grabNum cs
  let cs ← expectChar '/' cs
  let (d2, cs) ← grabNum cs
  let cs ← expectChar '/' cs
  let (y, cs) ← grabNum cs
  let cs ← expectChar ',' cs
  let cs := cs.dropWhile pyIsSpace
  let (h, cs) ← grabNum cs
  let cs ← expectChar ':' cs
  let (mi, cs) ← grabNum cs
  let (sec, cs) ←
    match cs with
    | ':' :: cs2 => grabNum cs2
    | _ => pure (0, cs)
  let cs := cs.dropWhile pyIsSpace
  let (mer, cs) ←
    match cs with
    | a :: b :: rest =>
      if merAm a b then pure (some false, rest)
      else if merPm a b then pure (some true, rest)
      else pure ((none : Option Bool), a :: b :: rest)
    | _ => pure ((none : Option Bool), cs)
  let cs := cs.dropWhile pyIsSpace
  if cs = [] then
    let (yy, mo, dd) ← assembleDMY d1 d2 y
    let hh ← hour24 h mer
    if mi ≤ 59 ∧ sec ≤ 59 then some ⟨yy, mo, dd, hh, mi, sec⟩ else none
  else none

/-! ## DataFrame stage -/

/-- A row of the returned DataFrame. -/
structure PRecord where
  timestamp : DT
  sender : String
  message : String
  message_type : MType
  media_filename : Option String
deriving DecidableEq

/-- Normalize one record's timestamp; `none` is the row `dropna` drops. -/
def withTs (r : RawRecord) : Option PRecord :=
  (toDatetime r.timestamp_str).map
    (fun t => ⟨t, r.sender, r.message, r.message_type, r.media_filename⟩)

/-- The source's `null_timestamps` count (line 213): rows whose
timestamp failed to parse and are dropped. -/
def nullTimestamps (lines : List String) : Nat :=
  ((recordsOf lines).filter (fun r => (toDatetime r.timestamp_str).isNone)).length

/-- Insert into a list sorted by timestamp key, after equal keys. -/
def insertTs (r : PRecord) : List PRecord → List PRecord
  | [] => [r]
  | x :: xs =>
    if x.timestamp.key ≤ r.timestamp.key then x :: insertTs r xs else r :: x :: xs

/-- Sort by timestamp.  Executable stand-in for
`df.sort_values(by="timestamp")`: pandas' default `kind='quicksort'`
guarantees only that the result is sorted by the key (it is documented
as not stable); no theorem below relies on more than sortedness and the
multiset of rows. -/
def sortTs : List PRecord → List PRecord
  | [] => []
  | x :: xs => insertTs x (sortTs xs)

/-- Lines 194-224 of the source after the loop: return empty when no
records were accumulated, otherwise normalize timestamps, drop the
failures, and sort by timestamp. -/
def parseLines (lines : List String) : List PRecord :=
  let data := recordsOf lines
  if data = [] then [] else sortTs (data.filterMap withTs)

/-- The whole `parse_chat_file` call.  The input is `none` when the file
cannot be opened or read (the `except` branch of lines 45-51, which
returns an empty DataFrame), and `some lines` for the `readlines()`
result otherwise. -/
def parse_chat_file : Option (List String) → List PRecord
  | none => []
  | some lines => parseLines lines

/-- Spec-side definition, for comparison only (not from the source):
"the filename has an audio-container extension used for voice notes",
read as the filename ending in the `.opus` extension. -/
def hasVoiceNoteExt (fn : String) : Bool :=
  (".opus".toList).isSuffixOf fn.toList

/-! ## Helper lemmas: the system regex matches a subset of the chat regex -/

/-- The `(.*)` body always matches. -/
theorem bodyOf_false_isSome (cs : List Char) : (bodyOf false cs).isSome = true := by
  cases cs with
  | nil => rfl
  | cons c rest =>
    simp only [bodyOf]
    by_cases h : pyIsSpace c = true <;> simp [h]

/-- A case-sensitive meridiem is also a case-insensitive one. -/
theorem isMerChars_mono (a b : Char) (h : isMerChars false a b = true) :
    isMerChars true a b = true := by
  simp only [isMerChars, Bool.and_eq_true, Bool.or_eq_true] at h ⊢
  simp at h ⊢
  tauto

/-- A closing bracket is not a meridiem letter. -/
theorem isMerChars_rbracket (ci : Bool) (b : Char) : isMerChars ci ']' b = false := by
  cases ci <;> simp [isMerChars]

/-- When the case-sensitive `\s*(?:[AP]M)?` tail ends right before `]`,
the case-insensitive one consumes exactly the same characters. -/
theorem merTailAux_true_of_false (l r : List Char)
    (h : merTailAux false l = ']' :: r) : merTailAux true l = ']' :: r := by
  match l with
  | [] => exact h
  | [a] => exact h
  | a :: b :: rest =>
    simp only [merTailAux] at h ⊢
    by_cases hm : isMerChars false a b = true
    · rw [if_pos hm] at h
      rw [if_pos (isMerChars_mono a b hm)]
      exact h
    · rw [if_neg hm] at h
      obtain ⟨ha, -⟩ := List.cons.inj h
      subst ha
      rw [if_neg (by simp [isMerChars_rbracket])]
      exact h

/-- The lifting of `merTailAux_true_of_false` to `merTail`. -/
theorem merTail_true_of_false (cs r : List Char)
    (h : merTail false cs = ']' :: r) : merTail true cs = ']' :: r :=
  merTailAux_true_of_false (cs.dropWhile pyIsSpace) r h

/-- A successful `(.+)` tail implies a successful `(.*)` tail. -/
theorem afterTs_star_of_plus (t : String) (cs2 : List Char)
    (h : (afterTs true t cs2).isSome = true) : (afterTs false t cs2).isSome = true := by
  match cs2 with
  | [] => exact absurd h (by simp [afterTs])
  | [c] => exact absurd h (by simp [afterTs])
  | c :: w :: cs4 =>
    simp only [afterTs] at h ⊢
    by_cases hw : c = ']' ∧ pyIsSpace w = true
    · rw [if_pos hw] at h ⊢
      cases hs : senderSplit cs4 with
      | none => simp [hs] at h
      | some p =>
        obtain ⟨sd, cs5⟩ := p
        simp only [hs]
        simpa using bodyOf_false_isSome cs5
    · rw [if_neg hw] at h
      exact absurd h (by simp)

/-- Every line `SYSTEM_MESSAGE_REGEX` matches, `WHATSAPP_CHAT_REGEX`
matches as well: the system pattern only adds restrictions (a non-empty
body, a case-sensitive meridiem). -/
theorem system_subset_chat (s : String)
    (h : (systemHeader s).isSome = true) : (chatHeader s).isSome = true := by
  simp only [systemHeader, chatHeader, bracketHeader, String.toList] at h ⊢
  cases hl : s.data with
  | nil => simp [hl] at h
  | cons c cs =>
    simp only [hl] at h ⊢
    simp only [bracketAux] at h ⊢
    by_cases hc : c = '['
    · rw [if_pos hc] at h ⊢
      cases ht : tsCore cs with
      | none => simp [ht] at h
      | some cs1 =>
        simp only [ht] at h ⊢
        cases hmt : merTail false cs1 with
        | nil => simp [hmt, afterTs] at h
        | cons a r =>
          by_cases ha : a = ']'
          · subst ha
            rw [hmt] at h
            rw [merTail_true_of_false cs1 r hmt]
            exact afterTs_star_of_plus _ _ h
          · rw [hmt] at h
            cases r with
            | nil => simp [afterTs] at h
            | cons w cs4 =>
              simp only [afterTs] at h
              rw [if_neg (fun hand => ha hand.1)] at h
              exact absurd h (by simp)
    · rw [if_neg hc] at h
      exact absurd h (by simp)

/-- When the chat regex rejects a line, so does the system regex. -/
theorem system_none_of_chat_none (s : String)
    (h : chatHeader s = none) : systemHeader s = none := by
  cases hs : systemHeader s with
  | none => rfl
  | some p =>
    have := system_subset_chat s (by rw [hs]; rfl)
    rw [h] at this
    exact absurd this (by simp)

/-- When neither the chat nor the legacy regex matches, the system regex
does not either: the `elif system_match` branch of the loop is dead. -/
theorem system_none_of_lineMatch_none (s : String)
    (h : lineMatch s = none) : systemHeader s = none := by
  apply system_none_of_chat_none
  cases hc : chatHeader s with
  | none => rfl
  | some p => rw [lineMatch, hc] at h; exact absurd h (by simp)

/-! ## Helper lemmas: the accumulator -/

@[simp] theorem flushPending_matched (st : PState) :
    (flushPending st).matched_count = st.matched_count := by
  unfold flushPending; split <;> rfl

@[simp] theorem flushPending_unmatched (st : PState) :
    (flushPending st).unmatched_count = st.unmatched_count := by
  unfold flushPending; split <;> rfl

@[simp] theorem endFlush_matched (st : PState) :
    (endFlush st).matched_count = st.matched_count := by
  unfold endFlush; split <;> rfl

@[simp] theorem endFlush_unmatched (st : PState) :
    (endFlush st).unmatched_count = st.unmatched_count := by
  unfold endFlush; split <;> rfl

/-- Appending continuation text to a record changes none of its
header-determined fields. -/
theorem appendMsg_headerFields (t : String) (r : RawRecord) :
    headerFields (appendMsg t r) = headerFields r := rfl

/-- A member of `updateLast f l` is a member of `l` or `f` of one. -/
theorem mem_updateLast (f : RawRecord → RawRecord) (l : List RawRecord) (r : RawRecord)
    (h : r ∈ updateLast f l) : r ∈ l ∨ ∃ r', r' ∈ l ∧ r = f r' := by
  induction l with
  | nil => simp [updateLast] at h
  | cons a as ih =>
    cases as with
    | nil =>
      simp [updateLast] at h
      exact Or.inr ⟨a, by simp, h⟩
    | cons b bs =>
      simp only [updateLast, List.mem_cons] at h
      rcases h with h | h
      · exact Or.inl (by simp [h])
      · rcases ih h with h' | ⟨r', hr', e⟩
        · exact Or.inl (List.mem_cons_of_mem _ h')
        · exact Or.inr ⟨r', List.mem_cons_of_mem _ hr', e⟩

/-- `updateLast` with a message-only update preserves the list of
header-determined fields. -/
theorem updateLast_map_headerFields (t : String) (l : List RawRecord) :
    (updateLast (appendMsg t) l).map headerFields = l.map headerFields := by
  induction l with
  | nil => rfl
  | cons a as ih =>
    cases as with
    | nil => simp [updateLast, appendMsg_headerFields]
    | cons b bs =>
      simp only [updateLast, List.map_cons] at ih ⊢
      rw [ih]

/-- The body classifier never yields the `system` tag (lines 112-122 of
the source assign only `text`, `media` or `voice_note`). -/
theorem postProcess_ne_system (t : String) : (postProcess t).2.1 ≠ MType.system := by
  unfold postProcess
  split
  · simp
  · split
    · split <;> simp
    · simp

/-- After a flush the pending continuation lines are always empty. -/
@[simp] theorem flushPending_cml (st : PState) :
    (flushPending st).current_message_lines = [] := by
  unfold flushPending
  split
  · assumption
  · rfl

/-- The loop step on a header line (branch equation). -/
theorem processLine_header (st : PState) (l : String) (ts sd bd : String)
    (hm : lineMatch (normalizeLine l) = some (ts, sd, bd)) :
    processLine st l =
      { flushPending st with
        matched_count := (flushPending st).matched_count + 1
        chat_data := (flushPending st).chat_data ++
          [⟨ts, sd, (postProcess (pyStrip bd)).1, (postProcess (pyStrip bd)).2.1,
            (postProcess (pyStrip bd)).2.2⟩] } := by
  simp only [processLine, hm]

/-- The loop step on a line only the system regex matches (branch
equation; the branch is in fact dead, see
`system_none_of_lineMatch_none`). -/
theorem processLine_system (st : PState) (l : String) (ts sd bd : String)
    (hm : lineMatch (normalizeLine l) = none)
    (hs : systemHeader (normalizeLine l) = some (ts, sd, bd)) :
    processLine st l =
      { flushPending st with
        matched_count := (flushPending st).matched_count + 1
        chat_data := (flushPending st).chat_data ++
          [⟨ts, "System", pyStrip bd, MType.system, none⟩] } := by
  simp only [processLine, hm, hs]

/-- The loop step on an unmatched line with no open record (branch
equation). -/
theorem processLine_unmatched (st : PState) (l : String)
    (hm : lineMatch (normalizeLine l) = none)
    (hs : systemHeader (normalizeLine l) = none)
    (he : st.chat_data = []) :
    processLine st l =
      { st with
        unmatched_count := st.unmatched_count + 1
        unmatched_samples :=
          if st.unmatched_samples.length < 3
          then st.unmatched_samples ++ [pyStrip (normalizeLine l)]
          else st.unmatched_samples } := by
  simp only [processLine, hm, hs, if_pos he]

/-- The loop step on a continuation line (branch equation). -/
theorem processLine_cont (st : PState) (l : String)
    (hm : lineMatch (normalizeLine l) = none)
    (hs : systemHeader (normalizeLine l) = none)
    (he : st.chat_data ≠ []) :
    processLine st l =
      { st with
        current_message_lines :=
          st.current_message_lines ++ [pyStrip (normalizeLine l)] } := by
  simp only [processLine, hm, hs, if_neg he]

/-- No system-typed record survives in `chat_data`: every state whose
records avoid the tag keeps avoiding it. -/
theorem noSystem_flushPending (st : PState)
    (h : ∀ r ∈ st.chat_data, r.message_type ≠ MType.system) :
    ∀ r ∈ (flushPending st).chat_data, r.message_type ≠ MType.system := by
  unfold flushPending
  split
  · exact h
  · intro r hr
    rcases mem_updateLast _ _ _ hr with h' | ⟨r', hr', e⟩
    · exact h r h'
    · rw [e]; exact h r' hr'

/-- One loop step preserves the absence of the `system` tag: the header
branch appends a `postProcess` tag and the system branch is dead. -/
theorem noSystem_processLine (st : PState) (l : String)
    (h : ∀ r ∈ st.chat_data, r.message_type ≠ MType.system) :
    ∀ r ∈ (processLine st l).chat_data, r.message_type ≠ MType.system := by
  cases hm : lineMatch (normalizeLine l) with
  | some p =>
    obtain ⟨ts, sd, bd⟩ := p
    rw [processLine_header st l ts sd bd hm]
    intro r hr
    simp only [List.mem_append, List.mem_singleton] at hr
    rcases hr with h' | h'
    · exact noSystem_flushPending st h r h'
    · rw [h']; exact postProcess_ne_system _
  | none =>
    cases hs : systemHeader (normalizeLine l) with
    | some p =>
      exact absurd (system_none_of_lineMatch_none _ hm) (by rw [hs]; simp)
    | none =>
      by_cases he : st.chat_data = []
      · rw [processLine_unmatched st l hm hs he]; exact h
      · rw [processLine_cont st l hm hs he]; exact h

/-- The `endFlush` step also preserves the absence of the tag. -/
theorem noSystem_endFlush (st : PState)
    (h : ∀ r ∈ st.chat_data, r.message_type ≠ MType.system) :
    ∀ r ∈ (endFlush st).chat_data, r.message_type ≠ MType.system := by
  unfold endFlush
  split
  · intro r hr
    rcases mem_updateLast _ _ _ hr with h' | ⟨r', hr', e⟩
    · exact h r h'
    · rw [e]; exact h r' hr'
  · exact h

/-- No record the loop ever accumulates carries the `system` tag. -/
theorem recordsOf_no_system (lines : List String) :
    ∀ r ∈ recordsOf lines, r.message_type ≠ MType.system := by
  unfold recordsOf finalState
  apply noSystem_endFlush
  have aux : ∀ (ls : List String) (st : PState),
      (∀ r ∈ st.chat_data, r.message_type ≠ MType.system) →
      ∀ r ∈ (ls.foldl processLine st).chat_data, r.message_type ≠ MType.system := by
    intro ls
    induction ls with
    | nil => intro st h; exact h
    | cons l ls ih =>
      intro st h
      exact ih (processLine st l) (noSystem_processLine st l h)
  exact aux lines initState (by intro r hr; simp [initState] at hr)

/-! ## Helper lemmas: counters -/

/-- One loop step adds exactly one to the counters unless the line is
absorbed as a continuation. -/
theorem processLine_counts (st : PState) (l : String) :
    (processLine st l).matched_count + (processLine st l).unmatched_count
      + (if contTaken st l then 1 else 0)
      = st.matched_count + st.unmatched_count + 1 := by
  cases hm : lineMatch (normalizeLine l) with
  | some p =>
    obtain ⟨ts, sd, bd⟩ := p
    rw [processLine_header st l ts sd bd hm]
    have : ¬ contTaken st l := by
      intro hc; rw [hc.1] at hm; exact absurd hm (by simp)
    simp [this]
    omega
  | none =>
    cases hs : systemHeader (normalizeLine l) with
    | some p =>
      obtain ⟨ts, sd, bd⟩ := p
      rw [processLine_system st l ts sd bd hm hs]
      have : ¬ contTaken st l := by
        intro hc; rw [hc.2.1] at hs; exact absurd hs (by simp)
      simp [this]
      omega
    | none =>
      by_cases he : st.chat_data = []
      · rw [processLine_unmatched st l hm hs he]
        have : ¬ contTaken st l := by
          intro hc; exact hc.2.2 he
        simp [this]
        omega
      · rw [processLine_cont st l hm hs he]
        have : contTaken st l := ⟨hm, hs, he⟩
        simp [this]

/-- The counter invariant over the whole fold. -/
theorem counts_aux (ls : List String) (st : PState) :
    (ls.foldl processLine st).matched_count + (ls.foldl processLine st).unmatched_count
      + contCount st ls
      = st.matched_count + st.unmatched_count + ls.length := by
  induction ls generalizing st with
  | nil => simp [contCount]
  | cons l ls ih =>
    simp only [List.foldl_cons, contCount, List.length_cons]
    have h1 := ih (processLine st l)
    have h2 := processLine_counts st l
    omega

/-! ## Helper lemmas: the DataFrame stage -/

/-- Membership in `insertTs`. -/
theorem mem_insertTs (r x : PRecord) (l : List PRecord) :
    x ∈ insertTs r l ↔ x = r ∨ x ∈ l := by
  induction l with
  | nil => simp [insertTs]
  | cons a as ih =>
    simp only [insertTs]
    split
    · simp only [List.mem_cons, ih]
      tauto
    · simp only [List.mem_cons]

/-- Sorting permutes the rows: membership is unchanged. -/
theorem mem_sortTs (x : PRecord) (l : List PRecord) :
    x ∈ sortTs l ↔ x ∈ l := by
  induction l with
  | nil => simp [sortTs]
  | cons a as ih => simp [sortTs, mem_insertTs, ih]

@[simp] theorem length_insertTs (r : PRecord) (l : List PRecord) :
    (insertTs r l).length = l.length + 1 := by
  induction l with
  | nil => rfl
  | cons a as ih =>
    simp only [insertTs]
    split
    · simp [ih]
    · simp

@[simp] theorem length_sortTs (l : List PRecord) :
    (sortTs l).length = l.length := by
  induction l with
  | nil => rfl
  | cons a as ih => simp [sortTs, ih]

/-- Every row either normalizes or is counted as dropped. -/
theorem filterMap_withTs_length (l : List RawRecord) :
    (l.filterMap withTs).length
      + (l.filter (fun r => (toDatetime r.timestamp_str).isNone)).length
      = l.length := by
  induction l with
  | nil => rfl
  | cons r rs ih =>
    cases hd : toDatetime r.timestamp_str with
    | none =>
      have hw : withTs r = none := by simp [withTs, hd]
      simp [List.filterMap_cons, hw, List.filter_cons, hd]
      omega
    | some t =>
      have hw : withTs r = some ⟨t, r.sender, r.message, r.message_type, r.media_filename⟩ := by
        simp [withTs, hd]
      simp [List.filterMap_cons, hw, List.filter_cons, hd]
      omega

/-- `parseLines` always equals the sorted, timestamp-filtered records
(the empty-`chat_data` early return coincides with the general path). -/
theorem parseLines_eq (lines : List String) :
    parseLines lines = sortTs ((recordsOf lines).filterMap withTs) := by
  unfold parseLines
  by_cases h : recordsOf lines = []
  · simp [h, sortTs]
  · simp [h]

/-! ## Claim theorems -/

/-- C2: on the spec's two-line example the continuation line is appended
to the body with no separator at the junction — the code produces
`"line oneline two"`, not the `"line one line two"` the spec states
(`chat_data[-1]['message'] += ' '.join(...)` inserts spaces only between
continuation lines, not before the first one). -/
theorem c2_continuation_joined_without_separator :
    (parse_chat_file (some ["[01/02/2023, 09:15:00 AM] Alice: line one", "line two"])).map
      (fun r => r.message) = ["line oneline two"] ∧
    "line oneline two" ≠ "line one line two" :=
  ⟨by decide, by decide⟩

/-- C3 (counterexample): there is no line that both the bracketed and
the legacy grammar reject but the system-notice variant accepts — the
negation of the claim's "it accepts some such lines". -/
theorem c3_counterexample_no_system_only_line :
    ¬ ∃ s : String, chatHeader s = none ∧ legacyHeader s = none ∧
      (systemHeader s).isSome = true := by
  rintro ⟨s, hc, -, hs⟩
  have h := system_subset_chat s hs
  rw [hc] at h
  exact absurd h (by simp)

/-- C3 (amended): the system-notice variant is attempted only on lines
both other grammars reject, but its pattern matches a strict subset of
the bracketed grammar (same `[^:]+` sender restriction, body `.+`
instead of `.*`, case-sensitive meridiem), so it never accepts such a
line and never produces a record. -/
theorem c3_system_variant_subsumed :
    (∀ s : String, (systemHeader s).isSome = true → (chatHeader s).isSome = true) ∧
    (∀ s : String, lineMatch s = none → systemHeader s = none) :=
  ⟨system_subset_chat, system_none_of_lineMatch_none⟩

/-- C4 (counterexample): a user literally named `System` yields a record
with `sender = "System"` and `message_type = text`, violating the
claimed biconditional. -/
theorem c4_counterexample_named_system_sender :
    (parse_chat_file (some ["[01/02/2023, 10:00] System: hi"])).map
      (fun r => (r.sender, r.message_type)) = [("System", MType.text)] ∧
    MType.text ≠ MType.system :=
  ⟨by decide, by decide⟩

/-- C4 (amended): no record in the parser's output ever has
`message_type = system` (the system branch is dead), while
`sender = "System"` does occur when the captured sender text is
literally `System`; the claimed equivalence holds in neither
direction. -/
theorem c4_no_record_is_system_typed :
    (∀ input : Option (List String), ∀ r ∈ parse_chat_file input,
      r.message_type ≠ MType.system) ∧
    (parse_chat_file (some ["[01/02/2023, 10:00] System: hi"])).map
      (fun r => r.sender) = ["System"] := by
  constructor
  · rintro (_ | lines) r hr
    · simp [parse_chat_file] at hr
    · simp only [parse_chat_file, parseLines_eq, mem_sortTs] at hr
      obtain ⟨raw, hraw, hw⟩ := List.mem_filterMap.mp hr
      have hns := recordsOf_no_system lines raw hraw
      cases hd : toDatetime raw.timestamp_str with
      | none => simp [withTs, hd] at hw
      | some t =>
        simp only [withTs, hd, Option.map_some', Option.some.injEq] at hw
        rw [← hw]
        exact hns
  · decide

/-- C5 (counterexample): the filename `x.opusx` does not have the
`.opus` extension, yet the attachment classifies as `voice_note`,
because the code tests `".opus" in media_filename` as a substring. -/
theorem c5_counterexample_substring_not_extension :
    (parse_chat_file (some ["[01/02/2023, 10:00] A: x.opusx (file attached)"])).map
      (fun r => (r.message_type, r.media_filename))
      = [(MType.voice_note, some "x.opusx")] ∧
    hasVoiceNoteExt "x.opusx" = false :=
  ⟨by decide, by decide⟩

/-- C5 (amended): for a body containing the attached-file marker (and
not the media-omitted marker, which takes precedence), the message is
cleared, the filename is the trimmed text before the marker, and the
type is `voice_note` exactly when that filename contains `".opus"` as a
substring; the spec's `note.opus` example holds end to end. -/
theorem c5_voice_note_iff_contains_opus :
    (∀ t : String, pyContains MEDIA_OMITTED_MSG t = false →
      pyContains fileAttachedMarker t = true →
      (postProcess t).1 = "" ∧
      (postProcess t).2.2 = some (pyStrip (partBefore fileAttachedMarker t)) ∧
      ((postProcess t).2.1 = MType.voice_note ↔
        pyContains ".opus" (pyStrip (partBefore fileAttachedMarker t)) = true)) ∧
    (parse_chat_file (some ["[01/02/2023, 10:00] A: note.opus (file attached)"])).map
      (fun r => (r.message, r.message_type, r.media_filename))
      = [("", MType.voice_note, some "note.opus")] := by
  constructor
  · intro t h1 h2
    unfold postProcess
    rw [if_neg (by simp [h1]), if_pos h2]
    refine ⟨rfl, rfl, ?_⟩
    by_cases hc : pyContains ".opus" (pyStrip (partBefore fileAttachedMarker t)) = true
    · simp [hc]
    · simp [hc]
  · decide

/-- C6 (counterexample): on a header line followed by one continuation
line, `matched_count + unmatched_count = 1` while two non-empty lines
were fed to the classifier — the continuation line increments neither
counter. -/
theorem c6_counterexample_continuation_uncounted :
    matchedCount ["[01/02/2023, 09:15:00 AM] Alice: line one", "line two"] = 1 ∧
    unmatchedCount ["[01/02/2023, 09:15:00 AM] Alice: line one", "line two"] = 0 ∧
    nonEmptyLineCount ["[01/02/2023, 09:15:00 AM] Alice: line one", "line two"] = 2 ∧
    (1 : Nat) + 0 ≠ 2 :=
  ⟨by decide, by decide, by decide, by decide⟩

/-- C6 (amended): `matched_count + unmatched_count` plus the number of
lines absorbed as continuations of an open record equals the total line
count fed to the classifier (empty lines included; an orphan line, even
an empty one, counts as unmatched). -/
theorem c6_three_way_conservation (lines : List String) :
    matchedCount lines + unmatchedCount lines + contCount initState lines
      = lines.length := by
  unfold matchedCount unmatchedCount finalState
  simp only [endFlush_matched, endFlush_unmatched]
  have h := counts_aux lines initState
  simpa [initState] using h

/-- C7 (counterexample): the ambiguous date `01/02/2023` normalizes to
January 2nd (pandas' default `dayfirst=False`), not to the 1st of
February the claim states. -/
theorem c7_counterexample_month_first :
    toDatetime "01/02/2023, 09:15:00 AM" = some ⟨2023, 1, 2, 9, 15, 0⟩ ∧
    toDatetime "01/02/2023, 09:15:00 AM" ≠ some ⟨2023, 2, 1, 9, 15, 0⟩ :=
  ⟨by decide, by decide⟩

/-- C7 (amended): the timestamp normalizer resolves an ambiguous date
month-first (the pandas default), falling back to day-first only when
the first field cannot be a month, and tolerates without per-record
hints: 2- and 4-digit years, 12- or 24-hour clocks, optional seconds,
and an optional (either-case) meridiem marker. -/
theorem c7_month_first_with_fallback :
    (∀ d1 d2 y r, 1 ≤ d1 → d1 ≤ 12 → assembleDMY d1 d2 y = some r →
        r = (pivotYear y, d1, d2)) ∧
    (∀ d1 d2 y r, 12 < d1 → assembleDMY d1 d2 y = some r →
        r = (pivotYear y, d2, d1)) ∧
    toDatetime "1/2/23, 9:15" = some ⟨2023, 1, 2, 9, 15, 0⟩ ∧
    toDatetime "01/02/2023, 09:15:00 pm" = some ⟨2023, 1, 2, 21, 15, 0⟩ ∧
    toDatetime "31/12/2023, 10:05 AM" = some ⟨2023, 12, 31, 10, 5, 0⟩ ∧
    toDatetime "31/12/2023, 23:59:59" = some ⟨2023, 12, 31, 23, 59, 59⟩ := by
  refine ⟨?_, ?_, by decide, by decide, by decide, by decide⟩
  · intro d1 d2 y r h1 h2 hr
    unfold assembleDMY at hr
    rw [if_pos ⟨h1, h2⟩] at hr
    split at hr
    · exact (Option.some.inj hr).symm
    · exact absurd hr (by simp)
  · intro d1 d2 y r h1 hr
    unfold assembleDMY at hr
    rw [if_neg (by omega)] at hr
    split at hr
    · split at hr
      · exact (Option.some.inj hr).symm
      · exact absurd hr (by simp)
    · exact absurd hr (by simp)

/-- C8: a record whose captured timestamp does not normalize is dropped
from the output and counted (`errors='coerce'` plus `dropna`), and every
record that does normalize still reaches the output — the parse never
aborts on a per-record failure. -/
theorem c8_unparsable_timestamps_dropped (lines : List String) :
    (parse_chat_file (some lines)).length + nullTimestamps lines
      = (recordsOf lines).length ∧
    (∀ r : PRecord, r ∈ parse_chat_file (some lines) ↔
      r ∈ (recordsOf lines).filterMap withTs) ∧
    (∀ raw ∈ recordsOf lines, ∀ t, toDatetime raw.timestamp_str = some t →
      (⟨t, raw.sender, raw.message, raw.message_type, raw.media_filename⟩ : PRecord)
        ∈ parse_chat_file (some lines)) := by
  refine ⟨?_, ?_, ?_⟩
  · simp only [parse_chat_file, parseLines_eq, length_sortTs]
    exact filterMap_withTs_length (recordsOf lines)
  · intro r
    simp only [parse_chat_file, parseLines_eq]
    exact mem_sortTs r _
  · intro raw hraw t ht
    simp only [parse_chat_file, parseLines_eq, mem_sortTs]
    exact List.mem_filterMap.mpr ⟨raw, hraw, by simp [withTs, ht]⟩

/-- C9: the parse call is a total function — an unreadable input yields
the empty result, and a run that accumulates no records returns the
empty `ChatLog` as an ordinary value. -/
theorem c9_total_and_empty_on_failure :
    parse_chat_file none = [] ∧
    (∀ lines : List String, recordsOf lines = [] →
      parse_chat_file (some lines) = []) ∧
    parse_chat_file (some []) = [] := by
  refine ⟨rfl, ?_, rfl⟩
  intro lines h
  simp [parse_chat_file, parseLines, h]

/-- C10: absorbing a continuation line leaves every accumulated record
untouched (only the pending-lines buffer grows), and the flush that
later folds the buffer into the last record changes only that record's
`message`: every `timestamp_str`, `sender`, `message_type` and
`media_filename` in `chat_data` is exactly as the header line set it,
whatever markers the continuation text contains. -/
theorem c10_continuation_frame :
    (∀ (st : PState) (l : String), contTaken st l →
        (processLine st l).chat_data = st.chat_data ∧
        (processLine st l).current_message_lines
          = st.current_message_lines ++ [pyStrip (normalizeLine l)] ∧
        (processLine st l).matched_count = st.matched_count ∧
        (processLine st l).unmatched_count = st.unmatched_count) ∧
    (∀ st : PState, (flushPending st).chat_data.map headerFields
        = st.chat_data.map headerFields) ∧
    (∀ st : PState, (endFlush st).chat_data.map headerFields
        = st.chat_data.map headerFields) := by
  refine ⟨?_, ?_, ?_⟩
  · intro st l hc
    rw [processLine_cont st l hc.1 hc.2.1 hc.2.2]
    exact ⟨rfl, rfl, rfl, rfl⟩
  · intro st
    unfold flushPending
    split
    · rfl
    · exact updateLast_map_headerFields _ _
  · intro st
    unfold endFlush
    split
    · exact updateLast_map_headerFields _ _
    · rfl

end WhatsappParser
